import Mathlib

/-
Verification of the circuit-breaker library (breaker.go).

The embedding models wall-clock instants and durations as integers
(nanosecond ticks, matching Go's time representation), machine state as an
explicit record threaded through the operations, the wrapped operation's
outcome as an input datum, and a Go panic (the nil OnStateChange callback
being invoked, or the wrapped handler panicking) as an explicit result
constructor.  Notifications delivered to the OnStateChange callback are
collected as a list of events.
-/

namespace Breaker

/-- The three breaker states (source: `State` constants `Open`, `HalfOpen`,
`Closed` in breaker.go). -/
inductive State where
  | Open
  | HalfOpen
  | Closed
deriving DecidableEq, Repr

/-- Notification record passed to the `OnStateChange` callback
(source: `Event`). -/
structure Event where
  When : Int
  From : State
  To : State
  Reason : String
deriving DecidableEq, Repr

/-- Source: `ReasonManuallyReset = "manually reset"`. -/
def ReasonManuallyReset : String := "manually reset"

/-- Source: `ReasonOpenStateExpired = "open state expired"`. -/
def ReasonOpenStateExpired : String := "open state expired"

/-- Source: `ReasonReachThreshold = "reach threshold"`. -/
def ReasonReachThreshold : String := "reach threshold"

/-- Source: `ReasonFailedOnHalfOpenState = "failed on half-open state"`. -/
def ReasonFailedOnHalfOpenState : String := "failed on half-open state"

/-- Source: `DefaultOpenStateExpiry = time.Minute` (in nanoseconds). -/
def DefaultOpenStateExpiry : Int := 60000000000

/-- Source: `DefaultFailureThreshold int64 = 100`. -/
def DefaultFailureThreshold : Int := 100

/-- Source: `DefaultSuccessThreshold int64 = 100`. -/
def DefaultSuccessThreshold : Int := 100

/-- Source: `DefaultGenerationInterval = 10 * time.Second` (nanoseconds). -/
def DefaultGenerationInterval : Int := 10000000000

/-- Source: `DefaultHalfOpenRequestLimit int64 = 200`. -/
def DefaultHalfOpenRequestLimit : Int := 200

/-- Per-generation counters (source: `Counts`). -/
structure Counts where
  Request : Int
  Success : Int
  Failure : Int
deriving DecidableEq, Repr

/-- Source: `(c *Counts) reset()` zeroes all three counters. -/
def Counts.reset (_ : Counts) : Counts := ⟨0, 0, 0⟩

/-- The two sentinel rejection errors (source: `ErrIsOpen`,
`ErrHalfOpenButExceedRequestLimit`). -/
inductive BreakerError where
  | ErrIsOpen
  | ErrHalfOpenButExceedRequestLimit
deriving DecidableEq, Repr

/-- An error value surfaced by `Do`: either one of the breaker's sentinel
rejections or an error produced by the wrapped handler (modelled by its
message). -/
inductive GoErr where
  | breaker (e : BreakerError)
  | handler (msg : String)
deriving DecidableEq, Repr

/-- Configuration record (source: `Option`; renamed `Opt` because `Option`
is taken by the ambient library).  The `OnStateChange` callback is modelled
by the single bit the breaker's control flow depends on: whether the
callback is nil (invoking a nil Go function panics).  Non-nil callbacks are
accounted for by collecting the events they would receive. -/
structure Opt where
  GenerationInterval : Int
  OpenStateExpiry : Int
  FailureThreshold : Int
  SuccessThreshold : Int
  HalfOpenRequestLimit : Int
  OnStateChangeNil : Bool
  shouldTrip : Counts → Bool

/-- The breaker's mutable state (source: `CircuitBreaker`; the mutex only
serializes the hooks, so the sequential semantics threads the record). -/
structure CircuitBreaker where
  opt : Opt
  state : State
  generation : Int
  counts : Counts

/-- Source: `moveToNextGeneration` — reset counts, then set the generation
expiry from the current state. -/
def moveToNextGeneration (cb : CircuitBreaker) (now : Int) : CircuitBreaker :=
  let cb1 := { cb with counts := cb.counts.reset }
  match cb1.state with
  | State.Open => { cb1 with generation := now + cb1.opt.OpenStateExpiry }
  | State.HalfOpen => { cb1 with generation := now + cb1.opt.GenerationInterval }
  | State.Closed => { cb1 with generation := now + cb1.opt.GenerationInterval }

/-- Source: `changeState` — install the new state, move to the next
generation, then unconditionally invoke `opt.OnStateChange`.  Invoking a
nil callback panics; the panic is the `Except.error` branch, carrying the
already-mutated breaker. -/
def changeState (cb : CircuitBreaker) (now : Int) (newState : State) (reason : String) :
    Except CircuitBreaker (CircuitBreaker × Event) :=
  let current := cb.state
  let cb1 := moveToNextGeneration { cb with state := newState } now
  if cb1.opt.OnStateChangeNil then
    Except.error cb1
  else
    Except.ok (cb1, { When := now, From := current, To := newState, Reason := reason })

/-- Source: `New` — fill defaulted fields, panic (here `Except.error ()`)
when the half-open request limit is below the success threshold, install
the default trip predicate (the source assigns it unconditionally), and
start the first generation. -/
def New (opt : Opt) (now : Int) : Except Unit CircuitBreaker :=
  let opt1 := if opt.OpenStateExpiry = 0 then { opt with OpenStateExpiry := DefaultOpenStateExpiry } else opt
  let opt2 := if opt1.FailureThreshold = 0 then { opt1 with FailureThreshold := DefaultFailureThreshold } else opt1
  let opt3 := if opt2.SuccessThreshold = 0 then { opt2 with SuccessThreshold := DefaultSuccessThreshold } else opt2
  let opt4 := if opt3.GenerationInterval = 0 then { opt3 with GenerationInterval := DefaultGenerationInterval } else opt3
  let opt5 := if opt4.HalfOpenRequestLimit = 0 then { opt4 with HalfOpenRequestLimit := DefaultHalfOpenRequestLimit } else opt4
  if opt5.HalfOpenRequestLimit < opt5.SuccessThreshold then
    Except.error ()
  else
    let opt6 := { opt5 with shouldTrip := fun c => decide (opt5.FailureThreshold ≤ c.Failure) }
    let cb : CircuitBreaker :=
      { opt := opt6, state := State.Closed, generation := now, counts := ⟨0, 0, 0⟩ }
    Except.ok (moveToNextGeneration cb cb.generation)

/-- Result of the admission hook: either the updated breaker with the
events emitted, the captured generation token and the verdict (`none`
means admitted), or a panic from the nil notification callback. -/
inductive HookResult where
  | ok (cb : CircuitBreaker) (events : List Event) (gen : Int) (err : Option BreakerError)
  | panicked (cb : CircuitBreaker)

/-- The `switch tempState` block at the head of `postStartHook`
(source lines 170–188). -/
def stateCheck (cb : CircuitBreaker) (now : Int) :
    Except CircuitBreaker (CircuitBreaker × List Event) :=
  match cb.state with
  | State.Open =>
    if cb.generation < now then
      match changeState cb now State.HalfOpen ReasonOpenStateExpired with
      | Except.error cb1 => Except.error cb1
      | Except.ok (cb1, ev) => Except.ok (cb1, [ev])
    else Except.ok (cb, [])
  | State.HalfOpen =>
    if cb.opt.SuccessThreshold ≤ cb.counts.Success then
      match changeState cb now State.Closed ReasonReachThreshold with
      | Except.error cb1 => Except.error cb1
      | Except.ok (cb1, ev) => Except.ok (cb1, [ev])
    else Except.ok (cb, [])
  | State.Closed =>
    if cb.opt.shouldTrip cb.counts then
      match changeState cb now State.Open ReasonReachThreshold with
      | Except.error cb1 => Except.error cb1
      | Except.ok (cb1, ev) => Except.ok (cb1, [ev])
    else Except.ok (cb, [])

/-- Source: `postStartHook` — state re-evaluation, generation rollover when
`now` is past the expiry, then the admission verdict (`Request > limit`
is the strict comparison from the source), incrementing `Request` when
admitted and returning the captured generation token. -/
def postStartHook (cb : CircuitBreaker) (now : Int) : HookResult :=
  match stateCheck cb now with
  | Except.error cb1 => HookResult.panicked cb1
  | Except.ok (cb1, evs) =>
    let cb2 := if cb1.generation < now then moveToNextGeneration cb1 now else cb1
    if cb2.state = State.Open then
      HookResult.ok cb2 evs cb2.generation (some BreakerError.ErrIsOpen)
    else if cb2.state = State.HalfOpen ∧ cb2.opt.HalfOpenRequestLimit < cb2.counts.Request then
      HookResult.ok cb2 evs cb2.generation (some BreakerError.ErrHalfOpenButExceedRequestLimit)
    else
      let cb3 := { cb2 with counts := { cb2.counts with Request := cb2.counts.Request + 1 } }
      HookResult.ok cb3 evs cb3.generation none

/-- Result of the completion hook: the updated breaker and the emitted
events, or a panic from the nil notification callback. -/
inductive StopResult where
  | ok (cb : CircuitBreaker) (events : List Event)
  | panicked (cb : CircuitBreaker)

/-- Source: `preStopHook` — discard the outcome when the captured
generation token no longer matches, otherwise count a success or failure
and, when HalfOpen and the probe failed, transition to Open. -/
def preStopHook (cb : CircuitBreaker) (currentGeneration : Int) (handleSuccess : Bool)
    (now : Int) : StopResult :=
  if currentGeneration ≠ cb.generation then
    StopResult.ok cb []
  else
    let cb1 :=
      if handleSuccess then
        { cb with counts := { cb.counts with Success := cb.counts.Success + 1 } }
      else
        { cb with counts := { cb.counts with Failure := cb.counts.Failure + 1 } }
    match cb1.state with
    | State.HalfOpen =>
      if handleSuccess then StopResult.ok cb1 []
      else
        match changeState cb1 now State.Open ReasonFailedOnHalfOpenState with
        | Except.error cb2 => StopResult.panicked cb2
        | Except.ok (cb2, ev) => StopResult.ok cb2 [ev]
    | State.Open => StopResult.ok cb1 []
    | State.Closed => StopResult.ok cb1 []

/-- Source: `Reset` — force a transition to Closed with the manual-reset
reason. -/
def Reset (cb : CircuitBreaker) (now : Int) : Except CircuitBreaker (CircuitBreaker × Event) :=
  changeState cb now State.Closed ReasonManuallyReset

/-- A single invocation of the wrapped handler, as observed by `Do`:
it returns a (response, error) pair, or it panics with some payload. -/
inductive HandleOutcome (α : Type) where
  | ret (resp : α) (err : Option String)
  | panics (payload : String)

/-- Result of one `Do` call: the (response, error) pair plus the breaker
state and the notifications emitted, or a propagated panic.  A panic
payload of `none` is the runtime nil-pointer panic from invoking a nil
`OnStateChange`; `some p` is the wrapped handler's own payload re-raised. -/
inductive DoResult (α : Type) where
  | ok (cb : CircuitBreaker) (events : List Event) (resp : Option α) (err : Option GoErr)
  | panicked (cb : CircuitBreaker) (events : List Event) (payload : Option String)

/-- Source: `Do` — admission via `postStartHook` (short-circuiting on a
verdict error), one invocation of the handler, then `preStopHook` with
`err == nil` as the success bit; a handler panic is routed through
`preStopHook(gen, false)` by the deferred recover block and then re-raised. -/
def Do {α : Type} (cb : CircuitBreaker) (now : Int) (outcome : HandleOutcome α)
    (nowStop : Int) : DoResult α :=
  match postStartHook cb now with
  | HookResult.panicked cb1 => DoResult.panicked cb1 [] none
  | HookResult.ok cb1 evs _ (some e) => DoResult.ok cb1 evs none (some (GoErr.breaker e))
  | HookResult.ok cb1 evs g none =>
    match outcome with
    | HandleOutcome.ret resp err =>
      match preStopHook cb1 g err.isNone nowStop with
      | StopResult.panicked cb2 => DoResult.panicked cb2 evs none
      | StopResult.ok cb2 evs2 => DoResult.ok cb2 (evs ++ evs2) (some resp) (err.map GoErr.handler)
    | HandleOutcome.panics p =>
      match preStopHook cb1 g false nowStop with
      | StopResult.panicked cb2 => DoResult.panicked cb2 evs none
      | StopResult.ok cb2 evs2 => DoResult.panicked cb2 (evs ++ evs2) (some p)

/-- An environment action against a breaker shared by concurrent callers:
an admission attempt (`postStartHook`) at some instant, a completion
(`preStopHook`) of a previously admitted call identified by its captured
generation token, or a manual `Reset`.  Interleaving admissions and
completions of distinct calls models the concurrency the mutex serializes. -/
inductive Action where
  | exec (now : Int)
  | complete (gen : Int) (success : Bool) (now : Int)
  | reset (now : Int)

/-- One serialized step: the breaker paired with the multiset (as a list)
of generation tokens of admitted-but-uncompleted calls, producing the next
pair and the events emitted during the step.  A completion must present a
token previously handed out by an admission. -/
def stepA (s : CircuitBreaker × List Int) (a : Action) :
    (CircuitBreaker × List Int) × List Event :=
  match a with
  | Action.exec now =>
    match postStartHook s.1 now with
    | HookResult.panicked cb1 => ((cb1, s.2), [])
    | HookResult.ok cb1 evs _ (some _) => ((cb1, s.2), evs)
    | HookResult.ok cb1 evs g none => ((cb1, g :: s.2), evs)
  | Action.complete g success now =>
    if g ∈ s.2 then
      match preStopHook s.1 g success now with
      | StopResult.panicked cb1 => ((cb1, s.2.erase g), [])
      | StopResult.ok cb1 evs => ((cb1, s.2.erase g), evs)
    else (s, [])
  | Action.reset now =>
    match Reset s.1 now with
    | Except.error cb1 => ((cb1, s.2), [])
    | Except.ok (cb1, ev) => ((cb1, s.2), [ev])

/-- Run a list of actions from a configuration, collecting all events. -/
def runActions (s : CircuitBreaker × List Int) :
    List Action → (CircuitBreaker × List Int) × List Event
  | [] => (s, [])
  | a :: rest =>
    let r1 := stepA s a
    let r2 := runActions r1.1 rest
    (r2.1, r1.2 ++ r2.2)

/-- Whether an admission at `now` runs `moveToNextGeneration` (a state
transition in the head switch, or the rollover when `now` is past the
expiry) — read off the branch structure of `postStartHook`. -/
def execResets (cb : CircuitBreaker) (now : Int) : Bool :=
  match cb.state with
  | State.Open => decide (cb.generation < now)
  | State.HalfOpen =>
    decide (cb.opt.SuccessThreshold ≤ cb.counts.Success) || decide (cb.generation < now)
  | State.Closed => cb.opt.shouldTrip cb.counts || decide (cb.generation < now)

/-- Whether a step resets the counts (equivalently, runs
`moveToNextGeneration`): admissions per `execResets`, completions exactly
when a matching-token failed probe transitions a HalfOpen breaker, resets
always. -/
def stepResets (s : CircuitBreaker × List Int) : Action → Bool
  | Action.exec now => execResets s.1 now
  | Action.complete g success _ =>
    decide (g ∈ s.2) && decide (g = s.1.generation) && !success &&
      decide (s.1.state = State.HalfOpen)
  | Action.reset _ => true

/-- Freshness of one step: whenever the step installs a new generation
(resetting the counts), the installed token differs from every outstanding
admitted token.  Generation tokens are expiry timestamps, so the source
can in principle re-issue an outstanding token; this predicate rules those
coincidences out. -/
def FreshStep (s : CircuitBreaker × List Int) (a : Action) : Prop :=
  stepResets s a = true → (stepA s a).1.1.generation ∉ s.2

/-- Freshness of every step along a run. -/
def FreshRun : (CircuitBreaker × List Int) → List Action → Prop
  | _, [] => True
  | s, a :: rest => FreshStep s a ∧ FreshRun (stepA s a).1 rest

/-- The counting invariant: successes and failures are non-negative and,
together with the outstanding admitted calls whose token still matches the
current generation, never exceed the request count. -/
def CountsInv (s : CircuitBreaker × List Int) : Prop :=
  0 ≤ s.1.counts.Success ∧ 0 ≤ s.1.counts.Failure ∧
    s.1.counts.Success + s.1.counts.Failure + (s.2.count s.1.generation : Int) ≤
      s.1.counts.Request

/-- A concrete configuration used by the evaluation witnesses. -/
def optW : Opt :=
  { GenerationInterval := 10, OpenStateExpiry := 7, FailureThreshold := 3,
    SuccessThreshold := 2, HalfOpenRequestLimit := 4, OnStateChangeNil := false,
    shouldTrip := fun c => decide ((3 : Int) ≤ c.Failure) }

/-- A concrete HalfOpen breaker used by the evaluation witnesses. -/
def cbHalfOpenW : CircuitBreaker :=
  { opt := optW, state := State.HalfOpen, generation := 10, counts := ⟨1, 0, 0⟩ }

/-- A concrete Open breaker used by the evaluation witnesses. -/
def cbOpenW : CircuitBreaker :=
  { opt := optW, state := State.Open, generation := 10, counts := ⟨0, 0, 0⟩ }

/-- A concrete Closed breaker used by the evaluation witnesses. -/
def cbClosedW : CircuitBreaker :=
  { opt := optW, state := State.Closed, generation := 10, counts := ⟨4, 1, 3⟩ }

/-- A concrete breaker whose notification callback is nil. -/
def cbNilW : CircuitBreaker :=
  { opt := { optW with OnStateChangeNil := true }, state := State.Closed,
    generation := 10, counts := ⟨4, 1, 3⟩ }

/-- A concrete HalfOpen breaker that has accumulated enough successes. -/
def cbHalfOpenSatW : CircuitBreaker :=
  { opt := optW, state := State.HalfOpen, generation := 10, counts := ⟨3, 2, 0⟩ }

/-- Configuration for the C2 counterexample run (all fields non-zero, so
`New` applies no defaults): limit 3, success threshold 3, failure
threshold 1. -/
def optC2 : Opt :=
  { GenerationInterval := 100, OpenStateExpiry := 1, FailureThreshold := 1,
    SuccessThreshold := 3, HalfOpenRequestLimit := 3, OnStateChangeNil := false,
    shouldTrip := fun _ => false }

/-- The breaker `New optC2 0` constructs. -/
def cbC2 : CircuitBreaker :=
  { opt := { optC2 with shouldTrip := fun c => decide ((1 : Int) ≤ c.Failure) },
    state := State.Closed, generation := 100, counts := ⟨0, 0, 0⟩ }

/-- Run reaching a HalfOpen generation with exactly `HalfOpenRequestLimit`
(= 3) admitted requests: one failure trips the breaker, the open state
expires, then three probes are admitted. -/
def actsC2 : List Action :=
  [Action.exec 1, Action.complete 100 false 2, Action.exec 3, Action.exec 5,
   Action.exec 6, Action.exec 7]

/-- A concrete idle Closed breaker (no failures yet). -/
def cbIdleW : CircuitBreaker :=
  { opt := optW, state := State.Closed, generation := 10, counts := ⟨0, 0, 0⟩ }

/-- `cbIdleW` after one admission. -/
def cbAdmW : CircuitBreaker :=
  { opt := optW, state := State.Closed, generation := 10, counts := ⟨1, 0, 0⟩ }

/-- `cbAdmW` after a successful completion. -/
def cbDoneW : CircuitBreaker :=
  { opt := optW, state := State.Closed, generation := 10, counts := ⟨1, 1, 0⟩ }

/-- `cbAdmW` after a failed completion. -/
def cbFailW : CircuitBreaker :=
  { opt := optW, state := State.Closed, generation := 10, counts := ⟨1, 0, 1⟩ }

/-- A concrete HalfOpen breaker whose request count exceeds the limit. -/
def cbOverLimitW : CircuitBreaker :=
  { opt := optW, state := State.HalfOpen, generation := 10, counts := ⟨5, 1, 0⟩ }

/-- Configuration for the C1 counterexample: failure threshold 1, all
fields non-zero so `New` applies no defaults. -/
def optC1 : Opt :=
  { GenerationInterval := 10, OpenStateExpiry := 10, FailureThreshold := 1,
    SuccessThreshold := 1, HalfOpenRequestLimit := 1, OnStateChangeNil := false,
    shouldTrip := fun _ => false }

/-- The breaker `New optC1 0` constructs. -/
def cbC1 : CircuitBreaker :=
  { opt := { optC1 with shouldTrip := fun c => decide ((1 : Int) ≤ c.Failure) },
    state := State.Closed, generation := 10, counts := ⟨0, 0, 0⟩ }

/-- Configuration for the C3 run: a caller-supplied trip predicate that
always fires, next to a failure threshold of 3; all fields non-zero so
`New` applies no defaults. -/
def optC3 : Opt :=
  { GenerationInterval := 10, OpenStateExpiry := 10, FailureThreshold := 3,
    SuccessThreshold := 2, HalfOpenRequestLimit := 2, OnStateChangeNil := false,
    shouldTrip := fun _ => true }

/-- The breaker `New optC3 0` constructs: the supplied predicate has been
overwritten by the default one. -/
def cbC3 : CircuitBreaker :=
  { opt := { optC3 with shouldTrip := fun c => decide ((3 : Int) ≤ c.Failure) },
    state := State.Closed, generation := 10, counts := ⟨0, 0, 0⟩ }

/-- Non-negativity of the three counters. -/
def CountsNonneg (cb : CircuitBreaker) : Prop :=
  0 ≤ cb.counts.Request ∧ 0 ≤ cb.counts.Success ∧ 0 ≤ cb.counts.Failure

/-- Configuration for the C10 counterexample run: the open-state expiry
(3) is shorter than the generation interval (10), which lets a
HalfOpen-to-Open transition re-issue a generation token that is still
outstanding. -/
def optC10 : Opt :=
  { GenerationInterval := 10, OpenStateExpiry := 3, FailureThreshold := 1,
    SuccessThreshold := 5, HalfOpenRequestLimit := 5, OnStateChangeNil := false,
    shouldTrip := fun _ => false }

/-- The breaker `New optC10 0` constructs. -/
def cbC10 : CircuitBreaker :=
  { opt := { optC10 with shouldTrip := fun c => decide ((1 : Int) ≤ c.Failure) },
    state := State.Closed, generation := 10, counts := ⟨0, 0, 0⟩ }

/-- C10 counterexample run: a failure trips the breaker at time 2 (token
5 = 2+3), the open state expires, two probes are admitted in the HalfOpen
generation with token 16 (= 6+10); the first probe fails at time 13, so
the HalfOpen-to-Open transition re-issues token 16 (= 13+3) and resets the
counts; the second, still-outstanding probe then completes successfully at
time 14 against the re-issued matching token. -/
def actsC10 : List Action :=
  [Action.exec 0, Action.complete 10 false 1, Action.exec 2, Action.exec 6,
   Action.exec 7, Action.complete 16 false 13, Action.complete 16 true 14]

theorem mtng_opt (cb : CircuitBreaker) (now : Int) :
    (moveToNextGeneration cb now).opt = cb.opt := by
  unfold moveToNextGeneration
  cases h : cb.state <;> simp [h]

theorem mtng_state (cb : CircuitBreaker) (now : Int) :
    (moveToNextGeneration cb now).state = cb.state := by
  unfold moveToNextGeneration
  cases h : cb.state <;> simp [h]

theorem mtng_counts (cb : CircuitBreaker) (now : Int) :
    (moveToNextGeneration cb now).counts = ⟨0, 0, 0⟩ := by
  unfold moveToNextGeneration
  cases h : cb.state <;> simp [h, Counts.reset]

theorem mtng_open (cb : CircuitBreaker) (now : Int) (h : cb.state = State.Open) :
    moveToNextGeneration cb now =
      { cb with counts := ⟨0, 0, 0⟩, generation := now + cb.opt.OpenStateExpiry } := by
  unfold moveToNextGeneration
  simp [h, Counts.reset]

theorem mtng_halfopen (cb : CircuitBreaker) (now : Int) (h : cb.state = State.HalfOpen) :
    moveToNextGeneration cb now =
      { cb with counts := ⟨0, 0, 0⟩, generation := now + cb.opt.GenerationInterval } := by
  unfold moveToNextGeneration
  simp [h, Counts.reset]

theorem mtng_closed (cb : CircuitBreaker) (now : Int) (h : cb.state = State.Closed) :
    moveToNextGeneration cb now =
      { cb with counts := ⟨0, 0, 0⟩, generation := now + cb.opt.GenerationInterval } := by
  unfold moveToNextGeneration
  simp [h, Counts.reset]

theorem changeState_ok (cb : CircuitBreaker) (now : Int) (ns : State) (r : String)
    (h : cb.opt.OnStateChangeNil = false) :
    changeState cb now ns r =
      Except.ok (moveToNextGeneration { cb with state := ns } now,
        { When := now, From := cb.state, To := ns, Reason := r }) := by
  unfold changeState
  simp [mtng_opt, h]

theorem changeState_nil (cb : CircuitBreaker) (now : Int) (ns : State) (r : String)
    (h : cb.opt.OnStateChangeNil = true) :
    changeState cb now ns r =
      Except.error (moveToNextGeneration { cb with state := ns } now) := by
  unfold changeState
  simp [mtng_opt, h]

/-- C5: a completion whose captured generation token no longer equals the
breaker's current generation is discarded whole: `preStopHook` leaves the
counts, the state and the generation untouched (it returns the breaker
unchanged) and emits no notification. -/
theorem c5_stale_generation_discarded (cb : CircuitBreaker) (g : Int) (s : Bool) (now : Int)
    (h : g ≠ cb.generation) : preStopHook cb g s now = StopResult.ok cb [] := by
  unfold preStopHook
  simp [h]

/-- Witness for C5 at a concrete breaker and a stale token. -/
theorem c5_witness :
    (99 : Int) ≠ cbHalfOpenW.generation ∧
      preStopHook cbHalfOpenW 99 true 11 = StopResult.ok cbHalfOpenW [] :=
  ⟨by decide, c5_stale_generation_discarded cbHalfOpenW 99 true 11 (by decide)⟩

/-- C6: while HalfOpen, a failing probe whose generation token still
matches transitions the breaker to Open at its completion, emitting one
notification with reason `ReasonFailedOnHalfOpenState`, and resets the
counts to zero (discarding any partial success progress). -/
theorem c6_halfopen_failure_reopens (cb : CircuitBreaker) (g now : Int)
    (hs : cb.state = State.HalfOpen) (hg : g = cb.generation)
    (hnil : cb.opt.OnStateChangeNil = false) :
    preStopHook cb g false now =
      StopResult.ok
        { cb with
          state := State.Open
          generation := now + cb.opt.OpenStateExpiry
          counts := ⟨0, 0, 0⟩ }
        [{ When := now, From := State.HalfOpen, To := State.Open,
           Reason := ReasonFailedOnHalfOpenState }] := by
  subst hg
  unfold preStopHook
  simp [hs, hnil, changeState_ok, mtng_open]

/-- Witness for C6 at a concrete HalfOpen breaker. -/
theorem c6_witness :
    cbHalfOpenW.state = State.HalfOpen ∧ (10 : Int) = cbHalfOpenW.generation ∧
      cbHalfOpenW.opt.OnStateChangeNil = false ∧
      preStopHook cbHalfOpenW 10 false 11 =
        StopResult.ok
          { cbHalfOpenW with
            state := State.Open
            generation := 11 + cbHalfOpenW.opt.OpenStateExpiry
            counts := ⟨0, 0, 0⟩ }
          [{ When := 11, From := State.HalfOpen, To := State.Open,
             Reason := ReasonFailedOnHalfOpenState }] :=
  ⟨rfl, rfl, rfl, c6_halfopen_failure_reopens cbHalfOpenW 10 11 rfl rfl rfl⟩

/-- C7: while HalfOpen, once the success count has reached
`SuccessThreshold`, the next admission transitions the breaker to Closed,
emitting one notification with reason `ReasonReachThreshold` (the string
"reach threshold"); the transition resets the counts to zero, after which
the admitted call itself is counted (`Request = 1`). -/
theorem c7_halfopen_success_closes (cb : CircuitBreaker) (now : Int)
    (hs : cb.state = State.HalfOpen)
    (hth : cb.opt.SuccessThreshold ≤ cb.counts.Success)
    (hnil : cb.opt.OnStateChangeNil = false) :
    postStartHook cb now =
      HookResult.ok
        { cb with
          state := State.Closed
          generation := now + cb.opt.GenerationInterval
          counts := ⟨1, 0, 0⟩ }
        [{ When := now, From := State.HalfOpen, To := State.Closed,
           Reason := ReasonReachThreshold }]
        (now + cb.opt.GenerationInterval) none := by
  by_cases hI : now + cb.opt.GenerationInterval < now
  all_goals
    simp [postStartHook, stateCheck, hs, hth, hnil, changeState_ok, mtng_closed, hI]

/-- Witness for C7 at a concrete HalfOpen breaker with enough successes. -/
theorem c7_witness :
    cbHalfOpenSatW.state = State.HalfOpen ∧
      cbHalfOpenSatW.opt.SuccessThreshold ≤ cbHalfOpenSatW.counts.Success ∧
      cbHalfOpenSatW.opt.OnStateChangeNil = false ∧
      postStartHook cbHalfOpenSatW 11 =
        HookResult.ok
          { cbHalfOpenSatW with
            state := State.Closed
            generation := 11 + cbHalfOpenSatW.opt.GenerationInterval
            counts := ⟨1, 0, 0⟩ }
          [{ When := 11, From := State.HalfOpen, To := State.Closed,
             Reason := ReasonReachThreshold }]
          (11 + cbHalfOpenSatW.opt.GenerationInterval) none :=
  ⟨rfl, by decide, rfl, c7_halfopen_success_closes cbHalfOpenSatW 11 rfl (by decide) rfl⟩

/-- C4: while Open and before the expiry, every `Do` call returns
`ErrIsOpen` with the breaker untouched and without invoking the wrapped
operation (the result does not depend on the operation's outcome); once
wall-clock time passes the expiry, the next admission first transitions to
HalfOpen — emitting the `ReasonOpenStateExpired` notification — and only
then decides admission (here: admits and counts the request). -/
theorem c4_open_blocks_until_expiry (cb : CircuitBreaker) (hs : cb.state = State.Open) :
    (∀ (α : Type) (outcome : HandleOutcome α) (now nowStop : Int), ¬ cb.generation < now →
      Do cb now outcome nowStop =
        DoResult.ok cb [] none (some (GoErr.breaker BreakerError.ErrIsOpen))) ∧
    (∀ now : Int, cb.generation < now → cb.opt.OnStateChangeNil = false →
      0 ≤ cb.opt.GenerationInterval → 0 ≤ cb.opt.HalfOpenRequestLimit →
      postStartHook cb now =
        HookResult.ok
          { cb with
            state := State.HalfOpen
            generation := now + cb.opt.GenerationInterval
            counts := ⟨1, 0, 0⟩ }
          [{ When := now, From := State.Open, To := State.HalfOpen,
             Reason := ReasonOpenStateExpired }]
          (now + cb.opt.GenerationInterval) none) := by
  constructor
  · intro α outcome now nowStop hlt
    simp [Do, postStartHook, stateCheck, hs, hlt]
  · intro now hlt hnil hI hL
    have hroll : ¬ (now + cb.opt.GenerationInterval < now) := by omega
    have hlim : ¬ (cb.opt.HalfOpenRequestLimit < (0 : Int)) := by omega
    simp [postStartHook, stateCheck, hs, hlt, hnil, changeState_ok, mtng_halfopen, hroll, hlim]

/-- Witness for C4: a concrete Open breaker rejects before expiry and
transitions to HalfOpen at the first admission after expiry. -/
theorem c4_witness :
    cbOpenW.state = State.Open ∧
      Do cbOpenW 5 (HandleOutcome.ret (0 : Int) none) 6 =
        DoResult.ok cbOpenW [] none (some (GoErr.breaker BreakerError.ErrIsOpen)) ∧
      postStartHook cbOpenW 12 =
        HookResult.ok
          { cbOpenW with
            state := State.HalfOpen
            generation := 12 + cbOpenW.opt.GenerationInterval
            counts := ⟨1, 0, 0⟩ }
          [{ When := 12, From := State.Open, To := State.HalfOpen,
             Reason := ReasonOpenStateExpired }]
          (12 + cbOpenW.opt.GenerationInterval) none :=
  ⟨rfl, (c4_open_blocks_until_expiry cbOpenW rfl).1 Int (HandleOutcome.ret 0 none) 5 6 (by decide),
    (c4_open_blocks_until_expiry cbOpenW rfl).2 12 (by decide) rfl (by decide) (by decide)⟩

/-- C9: with a nil `OnStateChange` callback every state transition panics,
because `changeState` invokes the callback unconditionally: any
`changeState` call panics, hence the first Closed-to-Open trip, the
Open-to-HalfOpen expiry transition, the HalfOpen failed-probe transition
and `Reset` all panic. -/
theorem c9_nil_callback_panics (cb : CircuitBreaker) (now : Int)
    (hnil : cb.opt.OnStateChangeNil = true) :
    (∀ (ns : State) (r : String), ∃ cb1, changeState cb now ns r = Except.error cb1) ∧
    (cb.state = State.Closed → cb.opt.shouldTrip cb.counts = true →
      ∃ cb1, postStartHook cb now = HookResult.panicked cb1) ∧
    (cb.state = State.Open → cb.generation < now →
      ∃ cb1, postStartHook cb now = HookResult.panicked cb1) ∧
    (∀ g : Int, g = cb.generation → cb.state = State.HalfOpen →
      ∃ cb1, preStopHook cb g false now = StopResult.panicked cb1) ∧
    (∃ cb1, Reset cb now = Except.error cb1) := by
  refine ⟨fun ns r => ⟨_, changeState_nil cb now ns r hnil⟩, ?_, ?_, ?_,
    ⟨_, changeState_nil cb now State.Closed ReasonManuallyReset hnil⟩⟩
  · intro hs htrip
    refine ⟨moveToNextGeneration { cb with state := State.Open } now, ?_⟩
    simp [postStartHook, stateCheck, hs, htrip, changeState_nil, hnil]
  · intro hs hlt
    refine ⟨moveToNextGeneration { cb with state := State.HalfOpen } now, ?_⟩
    simp [postStartHook, stateCheck, hs, hlt, changeState_nil, hnil]
  · intro g hg hs
    subst hg
    refine ⟨moveToNextGeneration
      { cb with
        state := State.Open
        counts := { cb.counts with Failure := cb.counts.Failure + 1 } } now, ?_⟩
    simp [preStopHook, hs, hnil, changeState_nil]

/-- Witness for C9: a concrete nil-sink breaker panics on `Reset` and on
the admission that trips it. -/
theorem c9_witness :
    cbNilW.opt.OnStateChangeNil = true ∧
      (∃ cb1, Reset cbNilW 5 = Except.error cb1) ∧
      (∃ cb1, postStartHook cbNilW 5 = HookResult.panicked cb1) :=
  ⟨rfl, (c9_nil_callback_panics cbNilW 5 rfl).2.2.2.2,
    (c9_nil_callback_panics cbNilW 5 rfl).2.1 rfl (by decide)⟩

/-- C2 (amended): while HalfOpen, once the request count of the current
generation strictly exceeds `HalfOpenRequestLimit` — i.e. after
`HalfOpenRequestLimit + 1` admissions, since the source's check is
`Request > limit` — every further call is rejected with
`ErrHalfOpenButExceedRequestLimit`, leaving the breaker untouched and
without invoking the wrapped operation (the result does not depend on the
operation's outcome), as long as the generation has not expired and the
success threshold has not been met. -/
theorem c2_halfopen_limit_rejects (cb : CircuitBreaker) (now : Int)
    (hs : cb.state = State.HalfOpen)
    (hlim : cb.opt.HalfOpenRequestLimit < cb.counts.Request)
    (hsuc : cb.counts.Success < cb.opt.SuccessThreshold)
    (hgen : ¬ cb.generation < now) :
    ∀ (α : Type) (outcome : HandleOutcome α) (nowStop : Int),
      Do cb now outcome nowStop =
        DoResult.ok cb [] none
          (some (GoErr.breaker BreakerError.ErrHalfOpenButExceedRequestLimit)) := by
  intro α outcome nowStop
  have h1 : ¬ cb.opt.SuccessThreshold ≤ cb.counts.Success := by omega
  simp [Do, postStartHook, stateCheck, hs, h1, hgen, hlim]

/-- Witness for C2 (amended) at a concrete HalfOpen breaker whose request
count already exceeds the limit. -/
theorem c2_witness :
    cbOverLimitW.state = State.HalfOpen ∧
      cbOverLimitW.opt.HalfOpenRequestLimit < cbOverLimitW.counts.Request ∧
      cbOverLimitW.counts.Success < cbOverLimitW.opt.SuccessThreshold ∧
      ¬ cbOverLimitW.generation < (9 : Int) ∧
      Do cbOverLimitW 9 (HandleOutcome.ret (0 : Int) none) 10 =
        DoResult.ok cbOverLimitW [] none
          (some (GoErr.breaker BreakerError.ErrHalfOpenButExceedRequestLimit)) :=
  ⟨rfl, by decide, by decide, by decide,
    c2_halfopen_limit_rejects cbOverLimitW 9 rfl (by decide) (by decide) (by decide)
      Int (HandleOutcome.ret 0 none) 10⟩

/-- C2 counterexample: in the reachable state with exactly
`HalfOpenRequestLimit` requests admitted in the current HalfOpen
generation, the next call is still admitted (the source compares
`Request > limit`, so the claim's "once exactly halfOpenRequestLimit
requests have been admitted, every further call is rejected" is false):
the admission verdict is `none` and a `Do` call runs the wrapped
operation and returns its response. -/
theorem c2_counterexample :
    New optC2 0 = Except.ok cbC2 ∧
    cbC2.opt.HalfOpenRequestLimit = 3 ∧
    (runActions (cbC2, []) actsC2).1.1.state = State.HalfOpen ∧
    (runActions (cbC2, []) actsC2).1.1.counts.Request = 3 ∧
    (∃ cb1 evs g, postStartHook (runActions (cbC2, []) actsC2).1.1 8 =
      HookResult.ok cb1 evs g none) ∧
    (∃ cb1 evs, Do (runActions (cbC2, []) actsC2).1.1 8 (HandleOutcome.ret (42 : Int) none) 9 =
      DoResult.ok cb1 evs (some 42) none) :=
  ⟨rfl, rfl, rfl, rfl, ⟨_, _, _, rfl⟩, ⟨_, _, rfl⟩⟩

/-- C8: for an admitted call, `Do` returns the wrapped operation's own
(response, error) pair unchanged (the error embedded via `GoErr.handler`),
after running the completion accounting with the captured token and
`err == nil` as the success bit; and when the wrapped operation panics,
the failure is recorded through the very same completion path
(`preStopHook` with success = false) and the panic payload is re-raised
unchanged. -/
theorem c8_passthrough (α : Type) (cb : CircuitBreaker) (now nowStop : Int)
    (cb1 : CircuitBreaker) (evs : List Event) (g : Int)
    (hadm : postStartHook cb now = HookResult.ok cb1 evs g none) :
    (∀ (resp : α) (err : Option String) (cb2 : CircuitBreaker) (evs2 : List Event),
      preStopHook cb1 g err.isNone nowStop = StopResult.ok cb2 evs2 →
      Do cb now (HandleOutcome.ret resp err) nowStop =
        DoResult.ok cb2 (evs ++ evs2) (some resp) (err.map GoErr.handler)) ∧
    (∀ (p : String) (cb2 : CircuitBreaker) (evs2 : List Event),
      preStopHook cb1 g false nowStop = StopResult.ok cb2 evs2 →
      Do cb now (HandleOutcome.panics p : HandleOutcome α) nowStop =
        DoResult.panicked cb2 (evs ++ evs2) (some p)) := by
  constructor
  · intro resp err cb2 evs2 hstop
    simp [Do, hadm, hstop]
  · intro p cb2 evs2 hstop
    simp [Do, hadm, hstop]

/-- Witness for C8: a concrete admitted call returns the handler's pair
unchanged, and a concrete panicking call is accounted as a failure and
re-raised with the same payload. -/
theorem c8_witness :
    postStartHook cbIdleW 1 = HookResult.ok cbAdmW [] 10 none ∧
      preStopHook cbAdmW 10 true 2 = StopResult.ok cbDoneW [] ∧
      Do cbIdleW 1 (HandleOutcome.ret (7 : Int) none) 2 =
        DoResult.ok cbDoneW [] (some 7) none ∧
      preStopHook cbAdmW 10 false 2 = StopResult.ok cbFailW [] ∧
      Do cbIdleW 1 (HandleOutcome.panics "kaboom" : HandleOutcome Int) 2 =
        DoResult.panicked cbFailW [] (some "kaboom") :=
  ⟨rfl, rfl,
    (c8_passthrough Int cbIdleW 1 2 cbAdmW [] 10 rfl).1 7 none cbDoneW [] rfl,
    rfl,
    (c8_passthrough Int cbIdleW 1 2 cbAdmW [] 10 rfl).2 "kaboom" cbFailW [] rfl⟩

/-- C1 counterexample: with failure threshold 1, the single `Do` call that
records the first (= threshold-th) consecutive failure completes with the
breaker still Closed and no notification emitted — the claimed
transition-at-the-recording-call does not happen; the code trips only at
the next admission. -/
theorem c1_counterexample :
    New optC1 0 = Except.ok cbC1 ∧
    cbC1.opt.FailureThreshold = 1 ∧
    Do cbC1 1 (HandleOutcome.ret (0 : Int) (some "boom")) 2 =
      DoResult.ok { cbC1 with counts := ⟨1, 0, 1⟩ } [] (some 0)
        (some (GoErr.handler "boom")) ∧
    ({ cbC1 with counts := ⟨1, 0, 1⟩ } : CircuitBreaker).state = State.Closed :=
  ⟨rfl, rfl, rfl, rfl⟩

/-- C1 (amended): while Closed, a failing completion only increments the
failure count — no transition, no notification; the Closed-to-Open trip
happens at the admission phase of the next call once the trip predicate
holds, that one admission emitting exactly one `ReasonReachThreshold`
notification and rejecting the call with `ErrIsOpen`; and subsequent
admissions while Open (before expiry) emit no further notification. -/
theorem c1_trip_at_next_admission (cb : CircuitBreaker) (hs : cb.state = State.Closed) :
    (∀ (g now : Int), g = cb.generation →
      preStopHook cb g false now =
        StopResult.ok
          { cb with counts := { cb.counts with Failure := cb.counts.Failure + 1 } } []) ∧
    (∀ now : Int, cb.opt.shouldTrip cb.counts = true → cb.opt.OnStateChangeNil = false →
      0 ≤ cb.opt.OpenStateExpiry →
      postStartHook cb now =
        HookResult.ok
          { cb with
            state := State.Open
            generation := now + cb.opt.OpenStateExpiry
            counts := ⟨0, 0, 0⟩ }
          [{ When := now, From := State.Closed, To := State.Open,
             Reason := ReasonReachThreshold }]
          (now + cb.opt.OpenStateExpiry) (some BreakerError.ErrIsOpen)) ∧
    (∀ (cb2 : CircuitBreaker) (now2 : Int), cb2.state = State.Open →
      ¬ cb2.generation < now2 →
      postStartHook cb2 now2 =
        HookResult.ok cb2 [] cb2.generation (some BreakerError.ErrIsOpen)) := by
  refine ⟨?_, ?_, ?_⟩
  · intro g now hg
    subst hg
    simp [preStopHook, hs]
  · intro now htrip hnil hE
    have hroll : ¬ (now + cb.opt.OpenStateExpiry < now) := by omega
    simp [postStartHook, stateCheck, hs, htrip, hnil, changeState_ok, mtng_open, hroll]
  · intro cb2 now2 hs2 hlt2
    simp [postStartHook, stateCheck, hs2, hlt2]

/-- Witness for C1 (amended) at a concrete Closed breaker whose failure
count has reached the threshold. -/
theorem c1_witness :
    cbClosedW.state = State.Closed ∧
      preStopHook cbClosedW 10 false 11 =
        StopResult.ok { cbClosedW with counts := ⟨4, 1, 4⟩ } [] ∧
      cbClosedW.opt.shouldTrip cbClosedW.counts = true ∧
      postStartHook cbClosedW 11 =
        HookResult.ok
          { cbClosedW with
            state := State.Open
            generation := 11 + cbClosedW.opt.OpenStateExpiry
            counts := ⟨0, 0, 0⟩ }
          [{ When := 11, From := State.Closed, To := State.Open,
             Reason := ReasonReachThreshold }]
          (11 + cbClosedW.opt.OpenStateExpiry) (some BreakerError.ErrIsOpen) ∧
      postStartHook cbOpenW 5 =
        HookResult.ok cbOpenW [] cbOpenW.generation (some BreakerError.ErrIsOpen) :=
  ⟨rfl,
    (c1_trip_at_next_admission cbClosedW rfl).1 10 11 rfl,
    rfl,
    (c1_trip_at_next_admission cbClosedW rfl).2.1 11 rfl rfl (by decide),
    (c1_trip_at_next_admission cbClosedW rfl).2.2 cbOpenW 5 rfl (by decide)⟩

/-- C3: the trip condition is not pluggable — `New` unconditionally
overwrites the supplied predicate with the default
"failure count ≥ failureThreshold".  With a supplied predicate that always
fires (and zero failures), the constructed breaker carries the default
predicate, and the first admission stays Closed and admits the call with
no notification, instead of tripping to Open as the supplied predicate
demands. -/
theorem c3_trip_predicate_not_pluggable :
    New optC3 0 = Except.ok cbC3 ∧
    optC3.shouldTrip cbC3.counts = true ∧
    cbC3.opt.shouldTrip = (fun c => decide ((3 : Int) ≤ c.Failure)) ∧
    cbC3.opt.shouldTrip cbC3.counts = false ∧
    postStartHook cbC3 1 =
      HookResult.ok { cbC3 with counts := ⟨1, 0, 0⟩ } [] 10 none ∧
    ({ cbC3 with counts := ⟨1, 0, 0⟩ } : CircuitBreaker).state = State.Closed :=
  ⟨rfl, rfl, rfl, rfl, rfl, rfl⟩

theorem psh_tail_reset (cb cb1 : CircuitBreaker) (evs : List Event) (now : Int)
    (hc : cb1.counts = ⟨0, 0, 0⟩ ∨ cb1.generation < now)
    (h : stateCheck cb now = Except.ok (cb1, evs)) :
    (∃ cb2 e, postStartHook cb now = HookResult.ok cb2 evs cb2.generation (some e) ∧
      cb2.counts = ⟨0, 0, 0⟩) ∨
    (∃ cb2, postStartHook cb now = HookResult.ok cb2 evs cb2.generation none ∧
      cb2.counts = ⟨1, 0, 0⟩) := by
  by_cases hr : cb1.generation < now
  · by_cases ho : (moveToNextGeneration cb1 now).state = State.Open
    · exact Or.inl ⟨moveToNextGeneration cb1 now, BreakerError.ErrIsOpen,
        by simp [postStartHook, h, hr, ho], mtng_counts cb1 now⟩
    · by_cases hh : (moveToNextGeneration cb1 now).state = State.HalfOpen ∧
        (moveToNextGeneration cb1 now).opt.HalfOpenRequestLimit <
          (moveToNextGeneration cb1 now).counts.Request
      · exact Or.inl ⟨moveToNextGeneration cb1 now, BreakerError.ErrHalfOpenButExceedRequestLimit,
          by simp [postStartHook, h, hr, ho, hh], mtng_counts cb1 now⟩
      · refine Or.inr ⟨{ moveToNextGeneration cb1 now with
          counts := { (moveToNextGeneration cb1 now).counts with
            Request := (moveToNextGeneration cb1 now).counts.Request + 1 } }, ?_, ?_⟩
        · simp [postStartHook, h, hr, ho, hh]
        · simp [mtng_counts]
  · have hc0 : cb1.counts = ⟨0, 0, 0⟩ := by
      rcases hc with h0 | hlt
      · exact h0
      · exact absurd hlt hr
    by_cases ho : cb1.state = State.Open
    · exact Or.inl ⟨cb1, BreakerError.ErrIsOpen, by simp [postStartHook, h, hr, ho], hc0⟩
    · by_cases hh : cb1.state = State.HalfOpen ∧
        cb1.opt.HalfOpenRequestLimit < cb1.counts.Request
      · exact Or.inl ⟨cb1, BreakerError.ErrHalfOpenButExceedRequestLimit,
          by simp [postStartHook, h, hr, ho, hh], hc0⟩
      · refine Or.inr ⟨{ cb1 with
          counts := { cb1.counts with Request := cb1.counts.Request + 1 } }, ?_, ?_⟩
        · simp [postStartHook, h, hr, ho, hh]
        · simp [hc0]

theorem psh_tail_noroll (cb : CircuitBreaker) (now : Int)
    (hr : ¬ cb.generation < now) (h : stateCheck cb now = Except.ok (cb, [])) :
    (∃ e, postStartHook cb now = HookResult.ok cb [] cb.generation (some e)) ∨
    postStartHook cb now =
      HookResult.ok { cb with counts := { cb.counts with Request := cb.counts.Request + 1 } }
        [] cb.generation none := by
  by_cases ho : cb.state = State.Open
  · exact Or.inl ⟨BreakerError.ErrIsOpen, by simp [postStartHook, h, hr, ho]⟩
  · by_cases hh : cb.state = State.HalfOpen ∧
      cb.opt.HalfOpenRequestLimit < cb.counts.Request
    · exact Or.inl ⟨BreakerError.ErrHalfOpenButExceedRequestLimit,
        by simp [postStartHook, h, hr, ho, hh]⟩
    · exact Or.inr (by simp [postStartHook, h, hr, ho, hh])

theorem postStartHook_spec (cb : CircuitBreaker) (now : Int) :
    (execResets cb now = false ∧
      ((∃ e, postStartHook cb now = HookResult.ok cb [] cb.generation (some e)) ∨
        postStartHook cb now =
          HookResult.ok
            { cb with counts := { cb.counts with Request := cb.counts.Request + 1 } }
            [] cb.generation none)) ∨
    (execResets cb now = true ∧
      ((∃ cb1, postStartHook cb now = HookResult.panicked cb1 ∧ cb1.counts = ⟨0, 0, 0⟩) ∨
        (∃ cb1 evs e, postStartHook cb now = HookResult.ok cb1 evs cb1.generation (some e) ∧
          cb1.counts = ⟨0, 0, 0⟩) ∨
        (∃ cb1 evs, postStartHook cb now = HookResult.ok cb1 evs cb1.generation none ∧
          cb1.counts = ⟨1, 0, 0⟩))) := by
  cases hs : cb.state
  case Open =>
    by_cases hr : cb.generation < now
    · refine Or.inr ⟨by simp [execResets, hs, hr], ?_⟩
      cases hnil : cb.opt.OnStateChangeNil
      · -- callback present
        have hsc : stateCheck cb now =
            Except.ok (moveToNextGeneration { cb with state := State.HalfOpen } now,
              [{ When := now, From := State.Open, To := State.HalfOpen,
                 Reason := ReasonOpenStateExpired }]) := by
          simp [stateCheck, hs, hr, changeState_ok, hnil]
        rcases psh_tail_reset cb _ _ now (Or.inl (mtng_counts _ _)) hsc with
          ⟨cb2, e, heq, hcc⟩ | ⟨cb2, heq, hcc⟩
        · exact Or.inr (Or.inl ⟨cb2, _, e, heq, hcc⟩)
        · exact Or.inr (Or.inr ⟨cb2, _, heq, hcc⟩)
      · -- nil callback
        exact Or.inl ⟨moveToNextGeneration { cb with state := State.HalfOpen } now,
          by simp [postStartHook, stateCheck, hs, hr, changeState_nil, hnil], mtng_counts _ _⟩
    · refine Or.inl ⟨by simp [execResets, hs, hr], ?_⟩
      have hsc : stateCheck cb now = Except.ok (cb, []) := by simp [stateCheck, hs, hr]
      simpa only [hs] using psh_tail_noroll cb now hr hsc
  case HalfOpen =>
    by_cases hth : cb.opt.SuccessThreshold ≤ cb.counts.Success
    · refine Or.inr ⟨by simp [execResets, hs, hth], ?_⟩
      cases hnil : cb.opt.OnStateChangeNil
      · -- callback present
        have hsc : stateCheck cb now =
            Except.ok (moveToNextGeneration { cb with state := State.Closed } now,
              [{ When := now, From := State.HalfOpen, To := State.Closed,
                 Reason := ReasonReachThreshold }]) := by
          simp [stateCheck, hs, hth, changeState_ok, hnil]
        rcases psh_tail_reset cb _ _ now (Or.inl (mtng_counts _ _)) hsc with
          ⟨cb2, e, heq, hcc⟩ | ⟨cb2, heq, hcc⟩
        · exact Or.inr (Or.inl ⟨cb2, _, e, heq, hcc⟩)
        · exact Or.inr (Or.inr ⟨cb2, _, heq, hcc⟩)
      · -- nil callback
        exact Or.inl ⟨moveToNextGeneration { cb with state := State.Closed } now,
          by simp [postStartHook, stateCheck, hs, hth, changeState_nil, hnil], mtng_counts _ _⟩
    · by_cases hr : cb.generation < now
      · refine Or.inr ⟨by simp [execResets, hs, hth, hr], ?_⟩
        have hsc : stateCheck cb now = Except.ok (cb, []) := by simp [stateCheck, hs, hth]
        rcases psh_tail_reset cb cb [] now (Or.inr hr) hsc with
          ⟨cb2, e, heq, hcc⟩ | ⟨cb2, heq, hcc⟩
        · exact Or.inr (Or.inl ⟨cb2, _, e, heq, hcc⟩)
        · exact Or.inr (Or.inr ⟨cb2, _, heq, hcc⟩)
      · refine Or.inl ⟨by simp [execResets, hs, hth, hr], ?_⟩
        have hsc : stateCheck cb now = Except.ok (cb, []) := by simp [stateCheck, hs, hth]
        simpa only [hs] using psh_tail_noroll cb now hr hsc
  case Closed =>
    cases ht : cb.opt.shouldTrip cb.counts
    · -- predicate does not fire
      by_cases hr : cb.generation < now
      · refine Or.inr ⟨by simp [execResets, hs, ht, hr], ?_⟩
        have hsc : stateCheck cb now = Except.ok (cb, []) := by simp [stateCheck, hs, ht]
        rcases psh_tail_reset cb cb [] now (Or.inr hr) hsc with
          ⟨cb2, e, heq, hcc⟩ | ⟨cb2, heq, hcc⟩
        · exact Or.inr (Or.inl ⟨cb2, _, e, heq, hcc⟩)
        · exact Or.inr (Or.inr ⟨cb2, _, heq, hcc⟩)
      · refine Or.inl ⟨by simp [execResets, hs, ht, hr], ?_⟩
        have hsc : stateCheck cb now = Except.ok (cb, []) := by simp [stateCheck, hs, ht]
        simpa only [hs] using psh_tail_noroll cb now hr hsc
    · -- predicate fires
      refine Or.inr ⟨by simp [execResets, hs, ht], ?_⟩
      cases hnil : cb.opt.OnStateChangeNil
      · -- callback present
        have hsc : stateCheck cb now =
            Except.ok (moveToNextGeneration { cb with state := State.Open } now,
              [{ When := now, From := State.Closed, To := State.Open,
                 Reason := ReasonReachThreshold }]) := by
          simp [stateCheck, hs, ht, changeState_ok, hnil]
        rcases psh_tail_reset cb _ _ now (Or.inl (mtng_counts _ _)) hsc with
          ⟨cb2, e, heq, hcc⟩ | ⟨cb2, heq, hcc⟩
        · exact Or.inr (Or.inl ⟨cb2, _, e, heq, hcc⟩)
        · exact Or.inr (Or.inr ⟨cb2, _, heq, hcc⟩)
      · -- nil callback
        exact Or.inl ⟨moveToNextGeneration { cb with state := State.Open } now,
          by simp [postStartHook, stateCheck, hs, ht, changeState_nil, hnil], mtng_counts _ _⟩

theorem preStopHook_spec (cb : CircuitBreaker) (g : Int) (s : Bool) (now : Int) :
    (g ≠ cb.generation ∧ preStopHook cb g s now = StopResult.ok cb []) ∨
    (g = cb.generation ∧ s = true ∧
      preStopHook cb g s now =
        StopResult.ok
          { cb with counts := { cb.counts with Success := cb.counts.Success + 1 } } []) ∨
    (g = cb.generation ∧ s = false ∧ cb.state ≠ State.HalfOpen ∧
      preStopHook cb g s now =
        StopResult.ok
          { cb with counts := { cb.counts with Failure := cb.counts.Failure + 1 } } []) ∨
    (g = cb.generation ∧ s = false ∧ cb.state = State.HalfOpen ∧
      ((∃ cb1, preStopHook cb g s now = StopResult.panicked cb1 ∧ cb1.counts = ⟨0, 0, 0⟩) ∨
       (∃ cb1 ev, preStopHook cb g s now = StopResult.ok cb1 [ev] ∧
         cb1.counts = ⟨0, 0, 0⟩))) := by
  by_cases hg : g = cb.generation
  · cases s
    · by_cases hh : cb.state = State.HalfOpen
      · refine Or.inr (Or.inr (Or.inr ⟨hg, rfl, hh, ?_⟩))
        cases hnil : cb.opt.OnStateChangeNil
        · exact Or.inr ⟨moveToNextGeneration
            { cb with
              state := State.Open
              counts := { cb.counts with Failure := cb.counts.Failure + 1 } } now,
            { When := now, From := State.HalfOpen, To := State.Open,
              Reason := ReasonFailedOnHalfOpenState },
            by simp [preStopHook, hg, hh, changeState_ok, hnil],
            mtng_counts _ _⟩
        · exact Or.inl ⟨moveToNextGeneration
            { cb with
              state := State.Open
              counts := { cb.counts with Failure := cb.counts.Failure + 1 } } now,
            by simp [preStopHook, hg, hh, changeState_nil, hnil], mtng_counts _ _⟩
      · refine Or.inr (Or.inr (Or.inl ⟨hg, rfl, hh, ?_⟩))
        cases hst : cb.state
        · simp [preStopHook, hg, hst]
        · exact absurd hst hh
        · simp [preStopHook, hg, hst]
    · refine Or.inr (Or.inl ⟨hg, rfl, ?_⟩)
      cases hst : cb.state <;> simp [preStopHook, hg, hst]
  · exact Or.inl ⟨hg, by simp [preStopHook, hg]⟩

theorem count_erase_le (l : List Int) (a b : Int) : (l.erase a).count b ≤ l.count b := by
  by_cases hab : a = b
  · subst hab
    rw [List.count_erase_self]
    omega
  · rw [List.count_erase_of_ne (Ne.symm hab) l]

theorem stepA_nonneg (cb : CircuitBreaker) (pend : List Int) (a : Action)
    (h : CountsNonneg cb) : CountsNonneg (stepA (cb, pend) a).1.1 := by
  obtain ⟨hR, hS, hF⟩ := h
  cases a
  case exec now =>
    rcases postStartHook_spec cb now with ⟨_, hcase⟩ | ⟨_, hcase⟩
    · rcases hcase with ⟨e, heq⟩ | heq
      · simp only [stepA, heq]
        exact ⟨hR, hS, hF⟩
      · simp only [stepA, heq]
        exact ⟨by simp; omega, by simpa using hS, by simpa using hF⟩
    · rcases hcase with ⟨cb1, heq, hc⟩ | ⟨cb1, evs, e, heq, hc⟩ | ⟨cb1, evs, heq, hc⟩ <;>
        simp only [stepA, heq] <;>
        exact ⟨by simp [CountsNonneg, hc], by simp [hc], by simp [hc]⟩
  case complete g b now =>
    by_cases hmem : g ∈ pend
    · rcases preStopHook_spec cb g b now with ⟨hg, heq⟩ | ⟨hg, hb, heq⟩ |
        ⟨hg, hb, hh, heq⟩ | ⟨hg, hb, hh, hcase⟩
      · simp only [stepA, if_pos hmem, heq]
        exact ⟨hR, hS, hF⟩
      · simp only [stepA, if_pos hmem, heq]
        exact ⟨by simpa using hR, by simp; omega, by simpa using hF⟩
      · simp only [stepA, if_pos hmem, heq]
        exact ⟨by simpa using hR, by simpa using hS, by simp; omega⟩
      · rcases hcase with ⟨cb1, heq, hc⟩ | ⟨cb1, ev, heq, hc⟩ <;>
          simp only [stepA, if_pos hmem, heq] <;>
          exact ⟨by simp [hc], by simp [hc], by simp [hc]⟩
    · simp only [stepA, if_neg hmem]
      exact ⟨hR, hS, hF⟩
  case reset now =>
    cases hnil : cb.opt.OnStateChangeNil
    · simp only [stepA, Reset, changeState_ok cb now State.Closed ReasonManuallyReset hnil]
      exact ⟨by simp [mtng_counts], by simp [mtng_counts], by simp [mtng_counts]⟩
    · simp only [stepA, Reset, changeState_nil cb now State.Closed ReasonManuallyReset hnil]
      exact ⟨by simp [mtng_counts], by simp [mtng_counts], by simp [mtng_counts]⟩

theorem stepA_inv (cb : CircuitBreaker) (pend : List Int) (a : Action)
    (h : CountsInv (cb, pend)) (hf : FreshStep (cb, pend) a) :
    CountsInv (stepA (cb, pend) a).1 := by
  obtain ⟨hS, hF, hk⟩ := h
  simp only at hS hF hk
  cases a
  case exec now =>
    rcases postStartHook_spec cb now with ⟨hres, hcase⟩ | ⟨hres, hcase⟩
    · rcases hcase with ⟨e, heq⟩ | heq
      · simp only [stepA, heq, CountsInv]
        exact ⟨hS, hF, hk⟩
      · simp only [stepA, heq, CountsInv]
        rw [List.count_cons_self]
        refine ⟨hS, hF, ?_⟩
        push_cast
        omega
    · have hres' : stepResets (cb, pend) (Action.exec now) = true := hres
      have hnotin := hf hres'
      rcases hcase with ⟨cb1, heq, hc⟩ | ⟨cb1, evs, e, heq, hc⟩ | ⟨cb1, evs, heq, hc⟩
      · have hstep : stepA (cb, pend) (Action.exec now) = ((cb1, pend), []) := by
          simp only [stepA, heq]
        have hni : cb1.generation ∉ pend := by simpa [hstep] using hnotin
        have hz : pend.count cb1.generation = 0 := List.count_eq_zero.mpr hni
        rw [hstep]
        simp only [CountsInv]
        rw [hc, hz]
        simp
      · have hstep : stepA (cb, pend) (Action.exec now) = ((cb1, pend), evs) := by
          simp only [stepA, heq]
        have hni : cb1.generation ∉ pend := by simpa [hstep] using hnotin
        have hz : pend.count cb1.generation = 0 := List.count_eq_zero.mpr hni
        rw [hstep]
        simp only [CountsInv]
        rw [hc, hz]
        simp
      · have hstep : stepA (cb, pend) (Action.exec now) =
            ((cb1, cb1.generation :: pend), evs) := by
          simp only [stepA, heq]
        have hni : cb1.generation ∉ pend := by simpa [hstep] using hnotin
        have hz : pend.count cb1.generation = 0 := List.count_eq_zero.mpr hni
        rw [hstep]
        simp only [CountsInv]
        rw [hc, List.count_cons_self, hz]
        simp
  case complete g b now =>
    by_cases hmem : g ∈ pend
    · rcases preStopHook_spec cb g b now with ⟨hg, heq⟩ | ⟨hg, hb, heq⟩ |
        ⟨hg, hb, hh, heq⟩ | ⟨hg, hb, hh, hcase⟩
      · simp only [stepA, if_pos hmem, heq, CountsInv]
        rw [List.count_erase_of_ne (Ne.symm hg)]
        exact ⟨hS, hF, hk⟩
      · have hpos : 0 < pend.count cb.generation :=
          List.count_pos_iff.mpr (hg ▸ hmem)
        simp only [stepA, if_pos hmem, heq, CountsInv]
        subst hg
        rw [List.count_erase_self]
        refine ⟨by omega, hF, ?_⟩
        push_cast [hpos]
        omega
      · have hpos : 0 < pend.count cb.generation :=
          List.count_pos_iff.mpr (hg ▸ hmem)
        simp only [stepA, if_pos hmem, heq, CountsInv]
        subst hg
        rw [List.count_erase_self]
        refine ⟨hS, by omega, ?_⟩
        push_cast [hpos]
        omega
      · subst hg
        have hres' : stepResets (cb, pend) (Action.complete cb.generation b now) = true := by
          simp [stepResets, hmem, hb, hh]
        have hnotin := hf hres'
        rcases hcase with ⟨cb1, heq, hc⟩ | ⟨cb1, ev, heq, hc⟩
        · have hstep : stepA (cb, pend) (Action.complete cb.generation b now) =
              ((cb1, pend.erase cb.generation), []) := by
            simp only [stepA, if_pos hmem, heq]
          have hni : cb1.generation ∉ pend := by simpa [hstep] using hnotin
          have hz : pend.count cb1.generation = 0 := List.count_eq_zero.mpr hni
          have hz2 : (pend.erase cb.generation).count cb1.generation = 0 :=
            Nat.le_zero.mp (hz ▸ count_erase_le pend cb.generation cb1.generation)
          rw [hstep]
          simp only [CountsInv]
          rw [hc, hz2]
          simp
        · have hstep : stepA (cb, pend) (Action.complete cb.generation b now) =
              ((cb1, pend.erase cb.generation), [ev]) := by
            simp only [stepA, if_pos hmem, heq]
          have hni : cb1.generation ∉ pend := by simpa [hstep] using hnotin
          have hz : pend.count cb1.generation = 0 := List.count_eq_zero.mpr hni
          have hz2 : (pend.erase cb.generation).count cb1.generation = 0 :=
            Nat.le_zero.mp (hz ▸ count_erase_le pend cb.generation cb1.generation)
          rw [hstep]
          simp only [CountsInv]
          rw [hc, hz2]
          simp
    · simp only [stepA, if_neg hmem, CountsInv]
      exact ⟨hS, hF, hk⟩
  case reset now =>
    have hres' : stepResets (cb, pend) (Action.reset now) = true := rfl
    have hnotin := hf hres'
    cases hnil : cb.opt.OnStateChangeNil
    · have hstep : stepA (cb, pend) (Action.reset now) =
          ((moveToNextGeneration { cb with state := State.Closed } now, pend),
            [{ When := now, From := cb.state, To := State.Closed,
               Reason := ReasonManuallyReset }]) := by
        simp only [stepA, Reset, changeState_ok cb now State.Closed ReasonManuallyReset hnil]
      have hni : (moveToNextGeneration { cb with state := State.Closed } now).generation ∉ pend := by
        simpa [hstep] using hnotin
      have hz : pend.count (moveToNextGeneration { cb with state := State.Closed } now).generation = 0 :=
        List.count_eq_zero.mpr hni
      rw [hstep]
      simp only [CountsInv]
      rw [mtng_counts, hz]
      simp
    · have hstep : stepA (cb, pend) (Action.reset now) =
          ((moveToNextGeneration { cb with state := State.Closed } now, pend), []) := by
        simp only [stepA, Reset, changeState_nil cb now State.Closed ReasonManuallyReset hnil]
      have hni : (moveToNextGeneration { cb with state := State.Closed } now).generation ∉ pend := by
        simpa [hstep] using hnotin
      have hz : pend.count (moveToNextGeneration { cb with state := State.Closed } now).generation = 0 :=
        List.count_eq_zero.mpr hni
      rw [hstep]
      simp only [CountsInv]
      rw [mtng_counts, hz]
      simp

theorem runActions_cons (s : CircuitBreaker × List Int) (a : Action) (rest : List Action) :
    (runActions s (a :: rest)).1 = (runActions (stepA s a).1 rest).1 := by
  simp [runActions]

theorem runActions_nonneg (acts : List Action) : ∀ (cb : CircuitBreaker) (pend : List Int),
    CountsNonneg cb → CountsNonneg (runActions (cb, pend) acts).1.1 := by
  induction acts with
  | nil => exact fun cb pend h => h
  | cons a rest ih =>
    intro cb pend h
    rw [runActions_cons]
    exact ih (stepA (cb, pend) a).1.1 (stepA (cb, pend) a).1.2 (stepA_nonneg cb pend a h)

theorem runActions_inv (acts : List Action) : ∀ (cb : CircuitBreaker) (pend : List Int),
    CountsInv (cb, pend) → FreshRun (cb, pend) acts →
    CountsInv (runActions (cb, pend) acts).1 := by
  induction acts with
  | nil => exact fun cb pend h _ => h
  | cons a rest ih =>
    intro cb pend h hfr
    obtain ⟨hf, hfr'⟩ := hfr
    rw [runActions_cons]
    exact ih (stepA (cb, pend) a).1.1 (stepA (cb, pend) a).1.2 (stepA_inv cb pend a h hf) hfr'

theorem New_eq (opt : Opt) (t0 : Int) :
    ∃ o : Opt, New opt t0 =
      (if o.HalfOpenRequestLimit < o.SuccessThreshold then Except.error ()
       else Except.ok (moveToNextGeneration
        { opt := { o with shouldTrip := fun c => decide (o.FailureThreshold ≤ c.Failure) },
          state := State.Closed, generation := t0, counts := ⟨0, 0, 0⟩ } t0)) :=
  ⟨_, rfl⟩

theorem New_counts (opt : Opt) (t0 : Int) (cb0 : CircuitBreaker)
    (h : New opt t0 = Except.ok cb0) : cb0.counts = ⟨0, 0, 0⟩ := by
  obtain ⟨o, he⟩ := New_eq opt t0
  rw [he] at h
  split at h
  · exact absurd h (by simp)
  · rw [Except.ok.injEq] at h
    subst h
    exact mtng_counts _ _

/-- C10 counterexample: along the concrete run `actsC10` from
`New optC10 0` — a run in which the HalfOpen-to-Open transition at time 13
re-issues generation token 16 while a probe admitted under the same token
16 is still outstanding — the final reachable state has counts
Request = 0, Success = 1, Failure = 0, so the claimed invariant
`Success + Failure ≤ Request` is false in a reachable state. -/
theorem c10_counterexample :
    New optC10 0 = Except.ok cbC10 ∧
    (runActions (cbC10, []) actsC10).1.1.counts.Request = 0 ∧
    (runActions (cbC10, []) actsC10).1.1.counts.Success = 1 ∧
    (runActions (cbC10, []) actsC10).1.1.counts.Failure = 0 ∧
    ¬ ((runActions (cbC10, []) actsC10).1.1.counts.Success +
        (runActions (cbC10, []) actsC10).1.1.counts.Failure ≤
        (runActions (cbC10, []) actsC10).1.1.counts.Request) :=
  ⟨rfl, rfl, rfl, rfl, by decide⟩

/-- C10 (amended): in every state reachable from a freshly constructed
breaker, all three counts are non-negative; and under the additional
freshness condition that no counts-resetting step (transition or window
rollover) installs a generation token equal to an outstanding admitted
token, `Success + Failure ≤ Request` also holds.  (Without the freshness
condition the bound can fail, because generation tokens are expiry
timestamps and a transition can re-issue an outstanding one — see the
counterexample.) -/
theorem c10_counts_invariant (opt : Opt) (t0 : Int) (cb0 : CircuitBreaker)
    (hnew : New opt t0 = Except.ok cb0) (acts : List Action) :
    CountsNonneg (runActions (cb0, []) acts).1.1 ∧
    (FreshRun (cb0, []) acts →
      (runActions (cb0, []) acts).1.1.counts.Success +
        (runActions (cb0, []) acts).1.1.counts.Failure ≤
        (runActions (cb0, []) acts).1.1.counts.Request) := by
  have hc := New_counts opt t0 cb0 hnew
  constructor
  · exact runActions_nonneg acts cb0 [] (by simp [CountsNonneg, hc])
  · intro hfr
    have h0 : CountsInv (cb0, []) := by simp [CountsInv, hc]
    have hinv := runActions_inv acts cb0 [] h0 hfr
    obtain ⟨hS1, hF1, hk1⟩ := hinv
    have hcast : (0 : Int) ≤
        ((runActions (cb0, []) acts).1.2.count (runActions (cb0, []) acts).1.1.generation : Int) :=
      Int.natCast_nonneg _
    omega

/-- Witness for C10 (amended) at the concrete configuration `optC10` and
the empty (trivially fresh) run. -/
theorem c10_witness :
    New optC10 0 = Except.ok cbC10 ∧
      CountsNonneg (runActions (cbC10, []) ([] : List Action)).1.1 ∧
      (runActions (cbC10, []) ([] : List Action)).1.1.counts.Success +
        (runActions (cbC10, []) ([] : List Action)).1.1.counts.Failure ≤
        (runActions (cbC10, []) ([] : List Action)).1.1.counts.Request :=
  ⟨rfl, (c10_counts_invariant optC10 0 cbC10 rfl []).1,
    (c10_counts_invariant optC10 0 cbC10 rfl []).2 (by simp [FreshRun])⟩

end Breaker
